import Mathlib

/-!
Shallow embedding of the MongoDB query-schema synthesizer (`SchemaService`,
`src/unnamed/part_001` of the repository).  JavaScript runtime values carried by
sampled documents are modelled by `BVal`; the JSON schema being produced (plain
JavaScript objects in the source, finally passed to `JSON.stringify`) is
modelled by `Json`.  JavaScript property assignment on objects
(`o[k] = v`: overwrite in place, else append) is `objSet`; `typeof` together
with the `Array.isArray` guard is `jsTypeOf` (note `typeof null === "object"`).
The asynchronous surface is modelled by `PromiseOutcome`: the promise returned
by `resolveSchema` either fulfills with the serialized text, rejects, or never
settles (`pending`, which is what happens in the source whenever a cursor
read rejects or the fold throws, because no rejection handler is ever
installed and the executor's reject callback is never invoked).
-/

namespace SchemaService

/-- A JSON value, as produced for `JSON.stringify`. -/
inductive Json where
  | null
  | bool (b : Bool)
  | num (n : Int)
  | str (s : String)
  | arr (elems : List Json)
  | obj (entries : List (String × Json))

/-- A JavaScript runtime value found in a sampled MongoDB document. -/
inductive BVal where
  | vNull
  | vBool (b : Bool)
  | vNum (n : Int)
  | vStr (s : String)
  | vObj (fields : List (String × BVal))
  | vArr (elems : List BVal)

/-- The entry list of a JavaScript object (insertion ordered). -/
abbrev Props := List (String × Json)

/-- JavaScript property read `o[k]` (first matching key; keys are unique). -/
def objGet : Props → String → Option Json
  | [], _ => none
  | (k, v) :: rest, key => if k == key then some v else objGet rest key

/-- JavaScript property assignment `o[k] = v`: an existing key is overwritten
in place, a fresh key is appended at the end (insertion order). -/
def objSet : Props → String → Json → Props
  | [], key, v => [(key, v)]
  | (k, w) :: rest, key, v =>
      if k == key then (key, v) :: rest else (k, w) :: objSet rest key v

/-- Whether the object has an entry for the given key. -/
def containsKey : Props → String → Bool
  | [], _ => false
  | (k, _) :: rest, key => k == key || containsKey rest key

/-- How many entries carry the given key (a JavaScript object always has 0 or 1). -/
def countKey : Props → String → Nat
  | [], _ => 0
  | (k, _) :: rest, key => (if k == key then 1 else 0) + countKey rest key

/-- Set a field of a JSON object value (`schema.properties = ...` in the source). -/
def jsonObjSet (j : Json) (key : String) (v : Json) : Json :=
  match j with
  | .obj entries => .obj (objSet entries key v)
  | _ => j

/-- `Array.isArray(value) ? "array" : typeof value`.  Note that
`typeof null === "object"` in JavaScript. -/
def jsTypeOf : BVal → String
  | .vNull => "object"
  | .vBool _ => "boolean"
  | .vNum _ => "number"
  | .vStr _ => "string"
  | .vObj _ => "object"
  | .vArr _ => "array"

/-- The possible results of `jsTypeOf` on a sampled value. -/
def runtimeTypeStrings : List String := ["object", "boolean", "number", "string", "array"]

/-- JSON string escaping as performed by `JSON.stringify` on the characters
that actually occur in this catalog (quote, backslash, newline, carriage
return, tab; all other occurring characters are emitted verbatim). -/
def escapeChar (c : Char) : String :=
  if c = '"' then "\\\""
  else if c = '\\' then "\\\\"
  else if c = '\n' then "\\n"
  else if c = '\r' then "\\r"
  else if c = '\t' then "\\t"
  else String.singleton c

/-- Escape a whole string for JSON output. -/
def escapeString (s : String) : String :=
  String.join (s.data.map escapeChar)

mutual

/-- `JSON.stringify` (no indentation), restricted to the values this service
builds. -/
def stringify : Json → String
  | .null => "null"
  | .bool b => if b then "true" else "false"
  | .num n => toString n
  | .str s => "\"" ++ escapeString s ++ "\""
  | .arr elems => "[" ++ stringifyElems elems ++ "]"
  | .obj entries => "\x7b" ++ stringifyEntries entries ++ "\x7d"

/-- Comma separated serialization of array elements. -/
def stringifyElems : List Json → String
  | [] => ""
  | v :: rest => stringify v ++ (if rest.isEmpty then "" else ",") ++ stringifyElems rest

/-- Comma separated serialization of object entries. -/
def stringifyEntries : List (String × Json) → String
  | [] => ""
  | (k, v) :: rest =>
      "\"" ++ escapeString k ++ "\":" ++ stringify v ++
        (if rest.isEmpty then "" else ",") ++ stringifyEntries rest

end

/-- `"mongo://query/" + collectionName` (source: `queryCollectionSchema`). -/
def queryCollectionSchema (collectionName : String) : String :=
  "mongo://query/" ++ collectionName

/-- `"mongo://query.json"` (source: `queryDocumentUri`). -/
def queryDocumentUri : String := "mongo://query.json"

/-- `registerSchemas`: one `{uri, fileMatch}` descriptor per collection name,
in the enumeration order of the data source. -/
def registerSchemas (collectionNames : List String) : List (String × List String) :=
  collectionNames.map (fun collectionName =>
    (queryCollectionSchema collectionName, [queryDocumentUri]))

/-- JavaScript `String.prototype.startsWith`. -/
def strStartsWith (s p : String) : Bool :=
  p.data.isPrefixOf s.data

/-- JavaScript `String.prototype.substring(n)` (drop the first `n` characters). -/
def strDrop (s : String) (n : Nat) : String :=
  String.mk (s.data.drop n)

/-- Truthiness of the `parent` argument of the fold: the source guards with
`!parent` and `parent ? ... : ...`, and both `null` (the root call) and the
empty string are falsy in JavaScript. -/
def isFalsyParent : Option String → Bool
  | none => true
  | some p => p == ""

/-- `parent ? parent + "." + property : property` (source line 71). -/
def scopedPropertyOf (parent : Option String) (property : String) : String :=
  match parent with
  | none => property
  | some p => if p == "" then property else p ++ "." ++ property

/-- The `geometryPropertySchema` literal of `setOperatorProperties`. -/
def geometryPropertySchema : Json :=
  .obj [("type", .str "object"),
        ("properties", .obj
          [("type", .obj [("type", .str "string"),
                          ("default", .str "GeoJSON object type")]),
           ("coordinates", .obj [("type", .str "array")]),
           ("crs", .obj [("type", .str "object"),
                         ("properties", .obj
                           [("type", .obj [("type", .str "string")]),
                            ("properties", .obj [("type", .str "object")])])])])]

/-- The entries of `expressionSchema.properties` built by
`setOperatorProperties`, in assignment order; the `$all`/`$size` pair is
inserted exactly when the field type is `array` (source lines 295-304). -/
def expressionSchemaProperties (type : String) : Props :=
  [("$eq", .obj [("type", .str type),
                 ("description", .str "Matches values that are equal to a specified value")]),
   ("$gt", .obj [("type", .str type),
                 ("description", .str "Matches values that are greater than a specified value")]),
   ("$gte", .obj [("type", .str type),
                  ("description", .str "Matches values that are greater than or equal to a specified value")]),
   ("$lt", .obj [("type", .str type),
                 ("description", .str "Matches values that are less than a specified value")]),
   ("$lte", .obj [("type", .str type),
                  ("description", .str "Matches values that are less than or equal to a specified value")]),
   ("$ne", .obj [("type", .str type),
                 ("description", .str "Matches all values that are not equal to a specified value")]),
   ("$in", .obj [("type", .str "array"),
                 ("description", .str "Matches any of the values specified in an array")]),
   ("$nin", .obj [("type", .str "array"),
                  ("description", .str "Matches none of the values specified in an array")]),
   ("$exists", .obj [("type", .str "boolean"),
                     ("description", .str "Matches documents that have the specified field")]),
   ("$type", .obj [("type", .str "string"),
                   ("description", .str "Selects documents if a field is of the specified type")]),
   ("$mod", .obj [("type", .str "array"),
                  ("description", .str "Performs a modulo operation on the value of a field and selects documents with a specified result"),
                  ("maxItems", .num 2),
                  ("default", .arr [.num 2, .num 0])]),
   ("$regex", .obj [("type", .str "string"),
                    ("description", .str "Selects documents where values match a specified regular expression")]),
   ("$geoWithin", .obj [("type", .str "object"),
                        ("description", .str "Selects geometries within a bounding GeoJSON geometry. The 2dsphere and 2d indexes support $geoWithin"),
                        ("properties", .obj
                          [("$geometry", geometryPropertySchema),
                           ("$box", .obj [("type", .str "array")]),
                           ("$polygon", .obj [("type", .str "array")]),
                           ("$center", .obj [("type", .str "array")]),
                           ("$centerSphere", .obj [("type", .str "array")])])]),
   ("$geoIntersects", .obj [("type", .str "object"),
                            ("description", .str "Selects geometries that intersect with a GeoJSON geometry. The 2dsphere index supports $geoIntersects"),
                            ("properties", .obj [("$geometry", geometryPropertySchema)])]),
   ("$near", .obj [("type", .str "object"),
                   ("description", .str "Returns geospatial objects in proximity to a point. Requires a geospatial index. The 2dsphere and 2d indexes support $near"),
                   ("properties", .obj
                     [("$geometry", geometryPropertySchema),
                      ("$maxDistance", .obj [("type", .str "number")]),
                      ("$minDistance", .obj [("type", .str "number")])])]),
   ("$nearSphere", .obj [("type", .str "object"),
                         ("description", .str "Returns geospatial objects in proximity to a point. Requires a geospatial index. The 2dsphere and 2d indexes support $near"),
                         ("properties", .obj
                           [("$geometry", geometryPropertySchema),
                            ("$maxDistance", .obj [("type", .str "number")]),
                            ("$minDistance", .obj [("type", .str "number")])])])]
  ++ (if type == "array" then
        [("$all", .obj [("type", .str "array"),
                        ("description", .str "Matches arrays that contain all elements specified in the query")]),
         ("$size", .obj [("type", .str "number"),
                         ("description", .str "Selects documents if the array field is a specified size")])]
      else [])
  ++ [("$bitsAllSet", .obj [("type", .str "array"),
                            ("description", .str "Matches numeric or binary values in which a set of bit positions all have a value of 1")]),
      ("$bitsAnySet", .obj [("type", .str "array"),
                            ("description", .str "Matches numeric or binary values in which any bit from a set of bit positions has a value of 1")]),
      ("$bitsAllClear", .obj [("type", .str "array"),
                              ("description", .str "Matches numeric or binary values in which a set of bit positions all have a value of 0")]),
      ("$bitsAnyClear", .obj [("type", .str "array"),
                              ("description", .str "Matches numeric or binary values in which any bit from a set of bit positions has a value of 0")])]

/-- The final value of `schema.properties` assembled at the end of
`setOperatorProperties` (source lines 324-332): the spread of
`expressionSchema.properties` followed by the `$not` wrapper (which carries a
copy of the same expression operator set) and the unconstrained `$elemMatch`. -/
def operatorProperties (type : String) : Props :=
  objSet
    (objSet (expressionSchemaProperties type)
      "$not"
      (.obj [("type", .str "object"),
             ("description", .str "Inverts the effect of a query expression and returns documents that do not match the query expression"),
             ("properties", .obj (expressionSchemaProperties type))]))
    "$elemMatch"
    (.obj [("type", .str "object")])

/-- `setOperatorProperties(type, schema)`: overwrites `schema.properties` with
the operator catalog for the given field type (the initial
`if (!schema.properties) schema.properties = \x7b\x7d` is subsumed by the final
assignment `schema.properties = ...`). -/
def setOperatorProperties (type : String) (schema : Json) : Json :=
  jsonObjSet schema "properties" (.obj (operatorProperties type))

/-- `setGlobalOperatorProperties`: attaches the root-level `$text`, `$where`
and `$comment` operators to `schema.properties`. -/
def setGlobalOperatorProperties (props : Props) : Props :=
  let props := objSet props "$text"
    (.obj [("type", .str "object"),
           ("description", .str "Performs text search"),
           ("properties", .obj
             [("$search", .obj [("type", .str "string"),
                                ("description", .str "A string of terms that MongoDB parses and uses to query the text index. MongoDB performs a logical OR search of the terms unless specified as a phrase")]),
              ("$language", .obj [("type", .str "string"),
                                  ("description", .str "Optional. The language that determines the list of stop words for the search and the rules for the stemmer and tokenizer. If not specified, the search uses the default language of the index.\nIf you specify a language value of \"none\", then the text search uses simple tokenization with no list of stop words and no stemming")]),
              ("$caseSensitive", .obj [("type", .str "boolean"),
                                       ("description", .str "Optional. A boolean flag to enable or disable case sensitive search. Defaults to false; i.e. the search defers to the case insensitivity of the text index")]),
              ("$diacriticSensitive", .obj [("type", .str "boolean"),
                                            ("description", .str "Optional. A boolean flag to enable or disable diacritic sensitive search against version 3 text indexes.Defaults to false; i.e.the search defers to the diacritic insensitivity of the text index\nText searches against earlier versions of the text index are inherently diacritic sensitive and cannot be diacritic insensitive. As such, the $diacriticSensitive option has no effect with earlier versions of the text index")])]),
           ("required", .arr [.str "$search"])])
  let props := objSet props "$where"
    (.obj [("type", .str "string"),
           ("description", .str "Matches documents that satisfy a JavaScript expression.\nUse the $where operator to pass either a string containing a JavaScript expression or a full JavaScript function to the query system")])
  objSet props "$comment"
    (.obj [("type", .str "string"),
           ("description", .str "Adds a comment to a query predicate")])

/-- `setLogicalOperatorProperties`: attaches the root-level `$or`, `$and` and
`$nor` operators, each an array of schema self-references via the resolving
URI. -/
def setLogicalOperatorProperties (props : Props) (schemaUri : String) : Props :=
  let props := objSet props "$or"
    (.obj [("type", .str "array"),
           ("description", .str "Joins query clauses with a logical OR returns all documents that match the conditions of either clause"),
           ("items", .obj [("$ref", .str schemaUri)])])
  let props := objSet props "$and"
    (.obj [("type", .str "array"),
           ("description", .str "Joins query clauses with a logical AND returns all documents that match the conditions of both clauses"),
           ("items", .obj [("$ref", .str schemaUri)])])
  objSet props "$nor"
    (.obj [("type", .str "array"),
           ("description", .str "Joins query clauses with a logical NOR returns all documents that fail to match both clauses"),
           ("items", .obj [("$ref", .str schemaUri)])])

mutual

/-- `setSchemaForDocument(parent, document, schema)` (source lines 57-68).
The accumulator is the mutable `schema.properties` of the single root schema
object; all dotted paths are written into it.  A `vNull` document has
`typeof document === "object"`, so the source reaches `Object.keys(document)`
which throws a `TypeError`; that throw is the `Except.error` case.  Arrays and
primitives fail the `type === "object"` test and are a no-op. -/
def setSchemaForDocument : Option String → BVal → Props → Except Unit Props
  | _, .vNull, _ => .error ()
  | parent, .vObj fields, props => setSchemaForFields parent fields props
  | _, _, props => .ok props

/-- The `for (const property of Object.keys(document))` loop of
`setSchemaForDocument`, iterating the key-value pairs directly (the source
reads `document[property]` back; keys of a JavaScript object are unique, so
this is the same).  A root-level (more precisely: falsy-parent) `_id` field is
skipped. -/
def setSchemaForFields : Option String → List (String × BVal) → Props → Except Unit Props
  | _, [], props => .ok props
  | parent, (property, value) :: rest, props =>
      if isFalsyParent parent && property == "_id" then
        setSchemaForFields parent rest props
      else do
        let props2 ← setSchemaForDocumentProperty parent property value props
        setSchemaForFields parent rest props2

/-- `setSchemaForDocumentProperty(parent, property, document, schema)`
(source lines 70-90).  After writing the node for the scoped path, the source
calls `setSchemaForDocument(scopedProperty, value, schema)` when the type is
`object`; since that callee immediately dispatches on the value's type, the
call is inlined here as the same dispatch (see
`setSchemaForDocumentProperty_eq` below), which makes the recursion
structural.  The `array` branch is the source's loop over the elements. -/
def setSchemaForDocumentProperty : Option String → String → BVal → Props → Except Unit Props
  | parent, property, value, props =>
      let scopedProperty := scopedPropertyOf parent property
      let type := jsTypeOf value
      let propertySchema :=
        setOperatorProperties type (Json.obj [("type", Json.arr [Json.str type, Json.str "object"])])
      let props2 := objSet props scopedProperty propertySchema
      match value with
      | .vObj fields => setSchemaForFields (some scopedProperty) fields props2
      | .vNull => .error ()
      | .vArr elems => setSchemaForElements scopedProperty elems props2
      | _ => .ok props2

/-- The `for (const v of value)` loop of `setSchemaForDocumentProperty` for an
array-typed field: each element is folded as a document at the same scoped
path. -/
def setSchemaForElements : String → List BVal → Props → Except Unit Props
  | _, [], props => .ok props
  | scopedProperty, v :: rest, props => do
      let props2 ← setSchemaForDocument (some scopedProperty) v props
      setSchemaForElements scopedProperty rest props2

end

/-- The `for (const document of result)` loop of
`_resolveQueryCollectionSchema`: every sampled document is folded with a
`null` parent into the one schema accumulator. -/
def setSchemaForDocuments : List BVal → Props → Except Unit Props
  | [], props => .ok props
  | document :: rest, props => do
      let props2 ← setSchemaForDocument none document props
      setSchemaForDocuments rest props2

/-- One interaction with the paginated cursor: either `hasNext()` is true and
`next()` yields a document, or one of the two cursor promises rejects. -/
inductive CursorStep where
  | doc (document : BVal)
  | fail

/-- The settlement state of the promise returned to the caller. -/
inductive PromiseOutcome where
  | fulfilled (value : String)
  | rejected (reason : String)
  | pending
deriving DecidableEq

/-- `readNext(result, cursor, batchSize, callback)` (source lines 335-352):
pulls one document at a time until the accumulated list reaches the batch size
or the cursor is exhausted, then invokes the callback; the returned value is
the callback's argument.  A rejected `hasNext()`/`next()` promise has no
rejection handler in the source, so the `.then` continuation (and with it the
callback) simply never runs: that is the `none` result. -/
def readNext : List BVal → List CursorStep → Nat → Option (List BVal)
  | result, cursor, batchSize =>
      if result.length == batchSize then some result
      else
        match cursor with
        | [] => some result
        | .fail :: _ => none
        | .doc d :: rest => readNext (result ++ [d]) rest batchSize

/-- `_resolveQueryCollectionSchema(collectionName, schemaUri)` (source lines
38-55).  The data source is modelled as a map from collection name to the
cursor's step sequence.  The executor of the returned `new Promise((c, e))`
never calls `e`, and the fold runs inside an unhandled `.then` continuation:
a dropped cursor chain or a `TypeError` thrown by the fold therefore leaves
the promise unsettled (`pending`); on success the promise is fulfilled with
`JSON.stringify(schema)` where `schema = \x7btype: "object", properties\x7d`. -/
def resolveQueryCollectionSchema (db : String → List CursorStep)
    (collectionName : String) (schemaUri : String) : PromiseOutcome :=
  let cursor := db collectionName
  match readNext [] cursor 10 with
  | none => PromiseOutcome.pending
  | some result =>
      match setSchemaForDocuments result [] with
      | .error _ => PromiseOutcome.pending
      | .ok props =>
          let props := setGlobalOperatorProperties props
          let props := setLogicalOperatorProperties props schemaUri
          PromiseOutcome.fulfilled
            (stringify (Json.obj [("type", Json.str "object"), ("properties", Json.obj props)]))

/-- `resolveSchema(uri)` (source lines 32-36): only URIs starting with
`"mongo://query/"` are resolved; any other URI falls off the end of the
function, i.e. yields `undefined` (`none`). -/
def resolveSchema (db : String → List CursorStep) (uri : String) : Option PromiseOutcome :=
  if strStartsWith uri "mongo://query/" then
    some (resolveQueryCollectionSchema db (strDrop uri ("mongo://query/".length)) uri)
  else
    none

mutual

/-- Whether `setSchemaForDocument` throws a `TypeError` on this document: the
document is `null` itself, or some visited field value leads to a throw. -/
def documentThrows : Bool → BVal → Bool
  | _, .vNull => true
  | parentFalsy, .vObj fields => fieldsThrow parentFalsy fields
  | _, _ => false

/-- Whether the field loop of `setSchemaForDocument` throws: a falsy-parent
`_id` field is skipped, every other field is examined in order. -/
def fieldsThrow : Bool → List (String × BVal) → Bool
  | _, [] => false
  | parentFalsy, (property, value) :: rest =>
      if parentFalsy && property == "_id" then fieldsThrow parentFalsy rest
      else propertyThrows (parentFalsy && property == "") value || fieldsThrow parentFalsy rest

/-- Whether `setSchemaForDocumentProperty` throws on this field value.  The
scoped path of the child is falsy exactly when the parent scope is falsy and
the property name is empty.  Nulls are visited (and throw) when they are the
value of an object-typed recursion or a direct array element; array elements
that are themselves arrays are not descended into. -/
def propertyThrows : Bool → BVal → Bool
  | scopedFalsy, .vObj fields => fieldsThrow scopedFalsy fields
  | _, .vNull => true
  | scopedFalsy, .vArr elems => elemsThrow scopedFalsy elems
  | _, _ => false

/-- Whether the element loop over an array-typed field throws. -/
def elemsThrow : Bool → List BVal → Bool
  | _, [] => false
  | scopedFalsy, v :: rest => documentThrows scopedFalsy v || elemsThrow scopedFalsy rest

end

mutual

/-- Whether the document contains, at any depth (including through array
elements), a field whose value is `null`. -/
def hasNullValuedField : BVal → Bool
  | .vObj fields => fieldsHaveNullValue fields
  | .vArr elems => elemsHaveNullValue elems
  | _ => false

/-- Some field of this object has value `null`, or some field value contains
one deeper down. -/
def fieldsHaveNullValue : List (String × BVal) → Bool
  | [] => false
  | (_, .vNull) :: _ => true
  | (_, value) :: rest => hasNullValuedField value || fieldsHaveNullValue rest

/-- Some array element contains a null-valued field. -/
def elemsHaveNullValue : List BVal → Bool
  | [] => false
  | v :: rest => hasNullValuedField v || elemsHaveNullValue rest

end

/-- The shape claimed for every per-field node: the `type` attribute is a
two-element list whose first element is one of the runtime type strings and
whose second element is the literal `"object"`. -/
def isTypeOrObjectNode (node : Json) : Bool :=
  match objGet (match node with | .obj entries => entries | _ => []) "type" with
  | some (.arr [.str t, .str o]) => o == "object" && runtimeTypeStrings.contains t
  | _ => false

/-! ## Helper lemmas -/

@[simp] theorem exceptOk_bind {α β : Type} (a : α) (f : α → Except Unit β) :
    (Except.ok a >>= f) = f a := rfl

@[simp] theorem exceptError_bind {α β : Type} (f : α → Except Unit β) :
    ((Except.error () : Except Unit α) >>= f) = Except.error () := rfl

@[simp] theorem exceptOk_isOk {α : Type} (a : α) :
    (Except.ok a : Except Unit α).isOk = true := rfl

@[simp] theorem exceptError_isOk {α : Type} :
    ((Except.error () : Except Unit α)).isOk = false := rfl

theorem objGet_objSet_self (props : Props) (key : String) (v : Json) :
    objGet (objSet props key v) key = some v := by
  induction props with
  | nil => simp [objSet, objGet]
  | cons hd tl ih =>
      obtain ⟨a, b⟩ := hd
      by_cases h : (a == key) = true
      · simp [objSet, objGet, h]
      · simp only [Bool.not_eq_true] at h
        simp [objSet, objGet, h, ih]

theorem containsKey_objSet_self (props : Props) (key : String) (v : Json) :
    containsKey (objSet props key v) key = true := by
  induction props with
  | nil => simp [objSet, containsKey]
  | cons hd tl ih =>
      obtain ⟨a, b⟩ := hd
      by_cases h : (a == key) = true
      · simp [objSet, containsKey, h]
      · simp only [Bool.not_eq_true] at h
        simp [objSet, containsKey, h, ih]

theorem containsKey_objSet_preserve (props : Props) (key k2 : String) (v : Json)
    (h : containsKey props k2 = true) : containsKey (objSet props key v) k2 = true := by
  induction props with
  | nil => simp [containsKey] at h
  | cons hd tl ih =>
      obtain ⟨a, b⟩ := hd
      simp only [containsKey, Bool.or_eq_true] at h
      by_cases hk : (a == key) = true
      · rcases h with h | h
        · have h1 : a = key := by simpa using hk
          have h3 : (key == k2) = true := by rw [← h1]; exact h
          simp [objSet, hk, containsKey, h3]
        · simp [objSet, hk, containsKey, h]
      · simp only [Bool.not_eq_true] at hk
        rcases h with h | h
        · simp [objSet, hk, containsKey, h]
        · simp [objSet, hk, containsKey, ih h]

theorem containsKey_objSet_of_ne (props : Props) (key k2 : String) (v : Json)
    (hne : (key == k2) = false) (h : containsKey props k2 = false) :
    containsKey (objSet props key v) k2 = false := by
  induction props with
  | nil => simp [objSet, containsKey, hne]
  | cons hd tl ih =>
      obtain ⟨a, b⟩ := hd
      simp only [containsKey, Bool.or_eq_false_iff] at h
      by_cases hk : (a == key) = true
      · simp [objSet, hk, containsKey, hne, h.2]
      · simp only [Bool.not_eq_true] at hk
        simp [objSet, hk, containsKey, h.1, ih h.2]

theorem all_objSet {P : Json → Bool} (props : Props) (key : String) (v : Json)
    (h : props.all (fun e => P e.2) = true) (hv : P v = true) :
    (objSet props key v).all (fun e => P e.2) = true := by
  induction props with
  | nil => simp [objSet, hv]
  | cons hd tl ih =>
      obtain ⟨a, b⟩ := hd
      simp only [List.all_cons, Bool.and_eq_true] at h
      by_cases hk : (a == key) = true
      · simp [objSet, hk, hv, h.2]
      · simp only [Bool.not_eq_true] at hk
        simp [objSet, hk, h.1, ih h.2]

theorem dottedPath_ne_id (p property : String) :
    ((p ++ "." ++ property) == "_id") = false := by
  rw [beq_eq_false_iff_ne]
  intro h
  have hd : p.data ++ ('.' :: property.data) = "_id".data := by
    have h2 := congrArg String.data h
    simpa [String.data_append] using h2
  have hmem : '.' ∈ p.data ++ ('.' :: property.data) := by simp
  rw [hd] at hmem
  exact absurd hmem (by decide)

theorem dottedPath_ne_empty (p property : String) :
    ((p ++ "." ++ property) == "") = false := by
  rw [beq_eq_false_iff_ne]
  intro h
  have hd : p.data ++ ('.' :: property.data) = ([] : List Char) := by
    have h2 := congrArg String.data h
    simp [String.data_append] at h2
  have hmem : '.' ∈ p.data ++ ('.' :: property.data) := by simp
  rw [hd] at hmem
  exact absurd hmem (by decide)

theorem isPrefixOf_append (a b : List Char) : a.isPrefixOf (a ++ b) = true := by
  induction a with
  | nil => simp [List.isPrefixOf]
  | cons c rest ih => simp [List.isPrefixOf, ih]

/-- The falsiness of the child scope the fold passes down equals the falsiness
the `documentThrows` model tracks. -/
theorem isFalsyParent_scoped (parent : Option String) (property : String) :
    isFalsyParent (some (scopedPropertyOf parent property)) =
      (isFalsyParent parent && (property == "")) := by
  match parent with
  | none => simp [isFalsyParent, scopedPropertyOf]
  | some p =>
      by_cases hp : (p == "") = true
      · simp [isFalsyParent, scopedPropertyOf, hp]
      · simp only [Bool.not_eq_true] at hp
        simp [isFalsyParent, scopedPropertyOf, hp, dottedPath_ne_empty]

/-- The object-typed branch of `setSchemaForDocumentProperty` is literally the
source's call `setSchemaForDocument(scopedProperty, value, schema)`: the
inlined dispatch agrees with that callee on every value. -/
theorem setSchemaForDocumentProperty_eq (parent : Option String) (property : String)
    (value : BVal) (props : Props) :
    setSchemaForDocumentProperty parent property value props =
      (let scopedProperty := scopedPropertyOf parent property
       let type := jsTypeOf value
       let propertySchema :=
         setOperatorProperties type (Json.obj [("type", Json.arr [Json.str type, Json.str "object"])])
       let props2 := objSet props scopedProperty propertySchema
       if type == "object" then
         setSchemaForDocument (some scopedProperty) value props2
       else if type == "array" then
         match value with
         | .vArr elems => setSchemaForElements scopedProperty elems props2
         | _ => .ok props2
       else .ok props2) := by
  cases value <;> rfl

theorem scopedProperty_ne_id (parent : Option String) (property : String)
    (hg : (isFalsyParent parent && (property == "_id")) = false) :
    (scopedPropertyOf parent property == "_id") = false := by
  match parent with
  | none =>
      simp [isFalsyParent] at hg
      simpa [scopedPropertyOf] using hg
  | some p =>
      by_cases hp : (p == "") = true
      · simp [isFalsyParent, hp] at hg
        simpa [scopedPropertyOf, hp] using hg
      · simp only [Bool.not_eq_true] at hp
        simp [scopedPropertyOf, hp, dottedPath_ne_id]

mutual

/-- The fold never records a property entry under the bare key `"_id"`:
the root (falsy-parent) `_id` is skipped, and every nested path contains a
dot. -/
theorem setSchemaForDocument_keepsNoId :
    ∀ (parent : Option String) (document : BVal) (props ps : Props),
      setSchemaForDocument parent document props = .ok ps →
      containsKey props "_id" = false → containsKey ps "_id" = false
  | _, .vNull, _, _ => by
      intro h hp
      simp [setSchemaForDocument] at h
  | parent, .vObj fields, props, ps => by
      intro h hp
      exact setSchemaForFields_keepsNoId parent fields props ps
        (by simpa [setSchemaForDocument] using h) hp
  | _, .vBool b, props, ps => by
      intro h hp
      simp [setSchemaForDocument] at h
      rwa [← h]
  | _, .vNum n, props, ps => by
      intro h hp
      simp [setSchemaForDocument] at h
      rwa [← h]
  | _, .vStr s, props, ps => by
      intro h hp
      simp [setSchemaForDocument] at h
      rwa [← h]
  | _, .vArr elems, props, ps => by
      intro h hp
      simp [setSchemaForDocument] at h
      rwa [← h]

theorem setSchemaForFields_keepsNoId :
    ∀ (parent : Option String) (fields : List (String × BVal)) (props ps : Props),
      setSchemaForFields parent fields props = .ok ps →
      containsKey props "_id" = false → containsKey ps "_id" = false
  | _, [], props, ps => by
      intro h hp
      simp [setSchemaForFields] at h
      rwa [← h]
  | parent, (property, value) :: rest, props, ps => by
      intro h hp
      by_cases hg : (isFalsyParent parent && (property == "_id")) = true
      · simp only [setSchemaForFields] at h
        rw [if_pos hg] at h
        exact setSchemaForFields_keepsNoId parent rest props ps h hp
      · simp only [Bool.not_eq_true] at hg
        simp only [setSchemaForFields] at h
        rw [if_neg (by simp [hg])] at h
        cases hv : setSchemaForDocumentProperty parent property value props with
        | error e =>
            rw [hv] at h
            cases e
            simp at h
        | ok props2 =>
            rw [hv] at h
            simp only [exceptOk_bind] at h
            exact setSchemaForFields_keepsNoId parent rest props2 ps h
              (setSchemaForDocumentProperty_keepsNoId parent property value props props2 hv hp hg)

theorem setSchemaForDocumentProperty_keepsNoId :
    ∀ (parent : Option String) (property : String) (value : BVal) (props ps : Props),
      setSchemaForDocumentProperty parent property value props = .ok ps →
      containsKey props "_id" = false →
      (isFalsyParent parent && (property == "_id")) = false →
      containsKey ps "_id" = false
  | parent, property, .vNull, props, ps => by
      intro h hp hg
      simp [setSchemaForDocumentProperty] at h
  | parent, property, .vObj fields, props, ps => by
      intro h hp hg
      simp only [setSchemaForDocumentProperty] at h
      exact setSchemaForFields_keepsNoId _ fields _ ps h
        (containsKey_objSet_of_ne _ _ _ _ (scopedProperty_ne_id parent property hg) hp)
  | parent, property, .vArr elems, props, ps => by
      intro h hp hg
      simp only [setSchemaForDocumentProperty] at h
      exact setSchemaForElements_keepsNoId _ elems _ ps h
        (containsKey_objSet_of_ne _ _ _ _ (scopedProperty_ne_id parent property hg) hp)
  | parent, property, .vBool b, props, ps => by
      intro h hp hg
      simp only [setSchemaForDocumentProperty, Except.ok.injEq] at h
      rw [← h]
      exact containsKey_objSet_of_ne _ _ _ _ (scopedProperty_ne_id parent property hg) hp
  | parent, property, .vNum n, props, ps => by
      intro h hp hg
      simp only [setSchemaForDocumentProperty, Except.ok.injEq] at h
      rw [← h]
      exact containsKey_objSet_of_ne _ _ _ _ (scopedProperty_ne_id parent property hg) hp
  | parent, property, .vStr s, props, ps => by
      intro h hp hg
      simp only [setSchemaForDocumentProperty, Except.ok.injEq] at h
      rw [← h]
      exact containsKey_objSet_of_ne _ _ _ _ (scopedProperty_ne_id parent property hg) hp

theorem setSchemaForElements_keepsNoId :
    ∀ (scopedProperty : String) (elems : List BVal) (props ps : Props),
      setSchemaForElements scopedProperty elems props = .ok ps →
      containsKey props "_id" = false → containsKey ps "_id" = false
  | _, [], props, ps => by
      intro h hp
      simp [setSchemaForElements] at h
      rwa [← h]
  | sp, v :: rest, props, ps => by
      intro h hp
      simp only [setSchemaForElements] at h
      cases hv : setSchemaForDocument (some sp) v props with
      | error e =>
          rw [hv] at h
          cases e
          simp at h
      | ok props2 =>
          rw [hv] at h
          simp only [exceptOk_bind] at h
          exact setSchemaForElements_keepsNoId sp rest props2 ps h
            (setSchemaForDocument_keepsNoId (some sp) v props props2 hv hp)

end

/-- Folding an entire batch of sampled documents never records a bare `"_id"`
property entry. -/
theorem setSchemaForDocuments_keepsNoId :
    ∀ (documents : List BVal) (props ps : Props),
      setSchemaForDocuments documents props = .ok ps →
      containsKey props "_id" = false → containsKey ps "_id" = false := by
  intro documents
  induction documents with
  | nil =>
      intro props ps h hp
      simp [setSchemaForDocuments] at h
      rwa [← h]
  | cons d rest ih =>
      intro props ps h hp
      simp only [setSchemaForDocuments] at h
      cases hv : setSchemaForDocument none d props with
      | error e =>
          rw [hv] at h
          cases e
          simp at h
      | ok props2 =>
          rw [hv] at h
          simp only [exceptOk_bind] at h
          exact ih props2 ps h (setSchemaForDocument_keepsNoId none d props props2 hv hp)

/-- Every per-field node the fold writes satisfies the type-or-object shape. -/
theorem isTypeOrObjectNode_written (value : BVal) :
    isTypeOrObjectNode
      (setOperatorProperties (jsTypeOf value)
        (Json.obj [("type", Json.arr [Json.str (jsTypeOf value), Json.str "object"])])) = true := by
  cases value <;> rfl

/-- Abbreviation for the invariant of the next block: every recorded property
node has a two-element `type` list ending in `"object"`. -/
def allTypeOrObject (props : Props) : Bool :=
  props.all (fun e => isTypeOrObjectNode e.2)

mutual

theorem setSchemaForDocument_typeShape :
    ∀ (parent : Option String) (document : BVal) (props ps : Props),
      setSchemaForDocument parent document props = .ok ps →
      allTypeOrObject props = true → allTypeOrObject ps = true
  | _, .vNull, _, _ => by
      intro h hp
      simp [setSchemaForDocument] at h
  | parent, .vObj fields, props, ps => by
      intro h hp
      exact setSchemaForFields_typeShape parent fields props ps
        (by simpa [setSchemaForDocument] using h) hp
  | _, .vBool b, props, ps => by
      intro h hp
      simp [setSchemaForDocument] at h
      rwa [← h]
  | _, .vNum n, props, ps => by
      intro h hp
      simp [setSchemaForDocument] at h
      rwa [← h]
  | _, .vStr s, props, ps => by
      intro h hp
      simp [setSchemaForDocument] at h
      rwa [← h]
  | _, .vArr elems, props, ps => by
      intro h hp
      simp [setSchemaForDocument] at h
      rwa [← h]

theorem setSchemaForFields_typeShape :
    ∀ (parent : Option String) (fields : List (String × BVal)) (props ps : Props),
      setSchemaForFields parent fields props = .ok ps →
      allTypeOrObject props = true → allTypeOrObject ps = true
  | _, [], props, ps => by
      intro h hp
      simp [setSchemaForFields] at h
      rwa [← h]
  | parent, (property, value) :: rest, props, ps => by
      intro h hp
      by_cases hg : (isFalsyParent parent && (property == "_id")) = true
      · simp only [setSchemaForFields] at h
        rw [if_pos hg] at h
        exact setSchemaForFields_typeShape parent rest props ps h hp
      · simp only [Bool.not_eq_true] at hg
        simp only [setSchemaForFields] at h
        rw [if_neg (by simp [hg])] at h
        cases hv : setSchemaForDocumentProperty parent property value props with
        | error e =>
            rw [hv] at h
            cases e
            simp at h
        | ok props2 =>
            rw [hv] at h
            simp only [exceptOk_bind] at h
            exact setSchemaForFields_typeShape parent rest props2 ps h
              (setSchemaForDocumentProperty_typeShape parent property value props props2 hv hp)

theorem setSchemaForDocumentProperty_typeShape :
    ∀ (parent : Option String) (property : String) (value : BVal) (props ps : Props),
      setSchemaForDocumentProperty parent property value props = .ok ps →
      allTypeOrObject props = true → allTypeOrObject ps = true
  | parent, property, .vNull, props, ps => by
      intro h hp
      simp [setSchemaForDocumentProperty] at h
  | parent, property, .vObj fields, props, ps => by
      intro h hp
      simp only [setSchemaForDocumentProperty] at h
      exact setSchemaForFields_typeShape _ fields _ ps h
        (all_objSet _ _ _ hp (isTypeOrObjectNode_written (.vObj fields)))
  | parent, property, .vArr elems, props, ps => by
      intro h hp
      simp only [setSchemaForDocumentProperty] at h
      exact setSchemaForElements_typeShape _ elems _ ps h
        (all_objSet _ _ _ hp (isTypeOrObjectNode_written (.vArr elems)))
  | parent, property, .vBool b, props, ps => by
      intro h hp
      simp only [setSchemaForDocumentProperty, Except.ok.injEq] at h
      rw [← h]
      exact all_objSet _ _ _ hp (isTypeOrObjectNode_written (.vBool b))
  | parent, property, .vNum n, props, ps => by
      intro h hp
      simp only [setSchemaForDocumentProperty, Except.ok.injEq] at h
      rw [← h]
      exact all_objSet _ _ _ hp (isTypeOrObjectNode_written (.vNum n))
  | parent, property, .vStr s, props, ps => by
      intro h hp
      simp only [setSchemaForDocumentProperty, Except.ok.injEq] at h
      rw [← h]
      exact all_objSet _ _ _ hp (isTypeOrObjectNode_written (.vStr s))

theorem setSchemaForElements_typeShape :
    ∀ (scopedProperty : String) (elems : List BVal) (props ps : Props),
      setSchemaForElements scopedProperty elems props = .ok ps →
      allTypeOrObject props = true → allTypeOrObject ps = true
  | _, [], props, ps => by
      intro h hp
      simp [setSchemaForElements] at h
      rwa [← h]
  | sp, v :: rest, props, ps => by
      intro h hp
      simp only [setSchemaForElements] at h
      cases hv : setSchemaForDocument (some sp) v props with
      | error e =>
          rw [hv] at h
          cases e
          simp at h
      | ok props2 =>
          rw [hv] at h
          simp only [exceptOk_bind] at h
          exact setSchemaForElements_typeShape sp rest props2 ps h
            (setSchemaForDocument_typeShape (some sp) v props props2 hv hp)

end

/-- Folding an entire batch of sampled documents keeps the type-or-object
shape of every recorded node. -/
theorem setSchemaForDocuments_typeShape :
    ∀ (documents : List BVal) (props ps : Props),
      setSchemaForDocuments documents props = .ok ps →
      allTypeOrObject props = true → allTypeOrObject ps = true := by
  intro documents
  induction documents with
  | nil =>
      intro props ps h hp
      simp [setSchemaForDocuments] at h
      rwa [← h]
  | cons d rest ih =>
      intro props ps h hp
      simp only [setSchemaForDocuments] at h
      cases hv : setSchemaForDocument none d props with
      | error e =>
          rw [hv] at h
          cases e
          simp at h
      | ok props2 =>
          rw [hv] at h
          simp only [exceptOk_bind] at h
          exact ih props2 ps h (setSchemaForDocument_typeShape none d props props2 hv hp)

theorem bool_of_false_eq_not {b : Bool} (h : false = !b) : b = true := by
  cases b <;> simp at h ⊢

theorem bool_of_true_eq_not {b : Bool} (h : true = !b) : b = false := by
  cases b <;> simp at h ⊢

mutual

/-- The fold succeeds on a document exactly when the `documentThrows` model
says no visited value is `null`. -/
theorem setSchemaForDocument_isOk :
    ∀ (parent : Option String) (document : BVal) (props : Props),
      (setSchemaForDocument parent document props).isOk =
        !documentThrows (isFalsyParent parent) document
  | _, .vNull, props => by simp [setSchemaForDocument, documentThrows]
  | parent, .vObj fields, props => by
      simpa [setSchemaForDocument, documentThrows] using
        setSchemaForFields_isOk parent fields props
  | _, .vBool b, props => by simp [setSchemaForDocument, documentThrows]
  | _, .vNum n, props => by simp [setSchemaForDocument, documentThrows]
  | _, .vStr s, props => by simp [setSchemaForDocument, documentThrows]
  | _, .vArr elems, props => by simp [setSchemaForDocument, documentThrows]

theorem setSchemaForFields_isOk :
    ∀ (parent : Option String) (fields : List (String × BVal)) (props : Props),
      (setSchemaForFields parent fields props).isOk =
        !fieldsThrow (isFalsyParent parent) fields
  | _, [], props => by simp [setSchemaForFields, fieldsThrow]
  | parent, (property, value) :: rest, props => by
      by_cases hg : (isFalsyParent parent && (property == "_id")) = true
      · simp only [setSchemaForFields, fieldsThrow]
        rw [if_pos hg, if_pos hg]
        exact setSchemaForFields_isOk parent rest props
      · simp only [Bool.not_eq_true] at hg
        simp only [setSchemaForFields, fieldsThrow]
        rw [if_neg (by simp [hg]), if_neg (by simp [hg])]
        have h1 := setSchemaForDocumentProperty_isOk parent property value props
        cases hv : setSchemaForDocumentProperty parent property value props with
        | error e =>
            cases e
            rw [hv] at h1
            simp only [exceptError_isOk] at h1
            have h2 := bool_of_false_eq_not h1
            simp [h2]
        | ok props2 =>
            rw [hv] at h1
            simp only [exceptOk_isOk] at h1
            have h2 := bool_of_true_eq_not h1
            simp [h2, setSchemaForFields_isOk parent rest props2]

theorem setSchemaForDocumentProperty_isOk :
    ∀ (parent : Option String) (property : String) (value : BVal) (props : Props),
      (setSchemaForDocumentProperty parent property value props).isOk =
        !propertyThrows (isFalsyParent parent && (property == "")) value
  | parent, property, .vNull, props => by
      simp [setSchemaForDocumentProperty, propertyThrows]
  | parent, property, .vObj fields, props => by
      have h1 := setSchemaForFields_isOk (some (scopedPropertyOf parent property)) fields
        (objSet props (scopedPropertyOf parent property)
          (setOperatorProperties (jsTypeOf (BVal.vObj fields))
            (Json.obj [("type", Json.arr [Json.str (jsTypeOf (BVal.vObj fields)), Json.str "object"])])))
      rw [isFalsyParent_scoped] at h1
      simpa [setSchemaForDocumentProperty, propertyThrows] using h1
  | parent, property, .vArr elems, props => by
      have h1 := setSchemaForElements_isOk (scopedPropertyOf parent property) elems
        (objSet props (scopedPropertyOf parent property)
          (setOperatorProperties (jsTypeOf (BVal.vArr elems))
            (Json.obj [("type", Json.arr [Json.str (jsTypeOf (BVal.vArr elems)), Json.str "object"])])))
      have h2 : ((scopedPropertyOf parent property == "") : Bool) =
          (isFalsyParent parent && (property == "")) := by
        have := isFalsyParent_scoped parent property
        simpa [isFalsyParent] using this
      rw [h2] at h1
      simpa [setSchemaForDocumentProperty, propertyThrows] using h1
  | parent, property, .vBool b, props => by
      simp [setSchemaForDocumentProperty, propertyThrows]
  | parent, property, .vNum n, props => by
      simp [setSchemaForDocumentProperty, propertyThrows]
  | parent, property, .vStr s, props => by
      simp [setSchemaForDocumentProperty, propertyThrows]

theorem setSchemaForElements_isOk :
    ∀ (scopedProperty : String) (elems : List BVal) (props : Props),
      (setSchemaForElements scopedProperty elems props).isOk =
        !elemsThrow (scopedProperty == "") elems
  | _, [], props => by simp [setSchemaForElements, elemsThrow]
  | sp, v :: rest, props => by
      have h1 := setSchemaForDocument_isOk (some sp) v props
      simp only [isFalsyParent] at h1
      cases hv : setSchemaForDocument (some sp) v props with
      | error e =>
          cases e
          rw [hv] at h1
          simp only [exceptError_isOk] at h1
          have h2 := bool_of_false_eq_not h1
          simp [setSchemaForElements, hv, elemsThrow, h2]
      | ok props2 =>
          rw [hv] at h1
          simp only [exceptOk_isOk] at h1
          have h2 := bool_of_true_eq_not h1
          simp [setSchemaForElements, hv, elemsThrow, h2,
            setSchemaForElements_isOk sp rest props2]

end

mutual

/-- Keys already present in the accumulator survive folding a document:
the fold only ever writes through `objSet`, which never removes entries. -/
theorem setSchemaForDocument_mono :
    ∀ (parent : Option String) (document : BVal) (props ps : Props) (key : String),
      setSchemaForDocument parent document props = .ok ps →
      containsKey props key = true → containsKey ps key = true
  | _, .vNull, _, _, _ => by
      intro h hk
      simp [setSchemaForDocument] at h
  | parent, .vObj fields, props, ps, key => by
      intro h hk
      exact setSchemaForFields_mono parent fields props ps key
        (by simpa [setSchemaForDocument] using h) hk
  | _, .vBool b, props, ps, key => by
      intro h hk
      simp [setSchemaForDocument] at h
      rwa [← h]
  | _, .vNum n, props, ps, key => by
      intro h hk
      simp [setSchemaForDocument] at h
      rwa [← h]
  | _, .vStr s, props, ps, key => by
      intro h hk
      simp [setSchemaForDocument] at h
      rwa [← h]
  | _, .vArr elems, props, ps, key => by
      intro h hk
      simp [setSchemaForDocument] at h
      rwa [← h]

theorem setSchemaForFields_mono :
    ∀ (parent : Option String) (fields : List (String × BVal)) (props ps : Props) (key : String),
      setSchemaForFields parent fields props = .ok ps →
      containsKey props key = true → containsKey ps key = true
  | _, [], props, ps, key => by
      intro h hk
      simp [setSchemaForFields] at h
      rwa [← h]
  | parent, (property, value) :: rest, props, ps, key => by
      intro h hk
      by_cases hg : (isFalsyParent parent && (property == "_id")) = true
      · simp only [setSchemaForFields] at h
        rw [if_pos hg] at h
        exact setSchemaForFields_mono parent rest props ps key h hk
      · simp only [Bool.not_eq_true] at hg
        simp only [setSchemaForFields] at h
        rw [if_neg (by simp [hg])] at h
        cases hv : setSchemaForDocumentProperty parent property value props with
        | error e =>
            rw [hv] at h
            cases e
            simp at h
        | ok props2 =>
            rw [hv] at h
            simp only [exceptOk_bind] at h
            exact setSchemaForFields_mono parent rest props2 ps key h
              (setSchemaForDocumentProperty_mono parent property value props props2 key hv hk)

theorem setSchemaForDocumentProperty_mono :
    ∀ (parent : Option String) (property : String) (value : BVal) (props ps : Props) (key : String),
      setSchemaForDocumentProperty parent property value props = .ok ps →
      containsKey props key = true → containsKey ps key = true
  | parent, property, .vNull, props, ps, key => by
      intro h hk
      simp [setSchemaForDocumentProperty] at h
  | parent, property, .vObj fields, props, ps, key => by
      intro h hk
      simp only [setSchemaForDocumentProperty] at h
      exact setSchemaForFields_mono _ fields _ ps key h
        (containsKey_objSet_preserve _ _ _ _ hk)
  | parent, property, .vArr elems, props, ps, key => by
      intro h hk
      simp only [setSchemaForDocumentProperty] at h
      exact setSchemaForElements_mono _ elems _ ps key h
        (containsKey_objSet_preserve _ _ _ _ hk)
  | parent, property, .vBool b, props, ps, key => by
      intro h hk
      simp only [setSchemaForDocumentProperty, Except.ok.injEq] at h
      rw [← h]
      exact containsKey_objSet_preserve _ _ _ _ hk
  | parent, property, .vNum n, props, ps, key => by
      intro h hk
      simp only [setSchemaForDocumentProperty, Except.ok.injEq] at h
      rw [← h]
      exact containsKey_objSet_preserve _ _ _ _ hk
  | parent, property, .vStr s, props, ps, key => by
      intro h hk
      simp only [setSchemaForDocumentProperty, Except.ok.injEq] at h
      rw [← h]
      exact containsKey_objSet_preserve _ _ _ _ hk

theorem setSchemaForElements_mono :
    ∀ (scopedProperty : String) (elems : List BVal) (props ps : Props) (key : String),
      setSchemaForElements scopedProperty elems props = .ok ps →
      containsKey props key = true → containsKey ps key = true
  | _, [], props, ps, key => by
      intro h hk
      simp [setSchemaForElements] at h
      rwa [← h]
  | sp, v :: rest, props, ps, key => by
      intro h hk
      simp only [setSchemaForElements] at h
      cases hv : setSchemaForDocument (some sp) v props with
      | error e =>
          rw [hv] at h
          cases e
          simp at h
      | ok props2 =>
          rw [hv] at h
          simp only [exceptOk_bind] at h
          exact setSchemaForElements_mono sp rest props2 ps key h
            (setSchemaForDocument_mono (some sp) v props props2 key hv hk)

end

/-- A successful `setSchemaForDocumentProperty` call always leaves an entry
at its own scoped path (it writes the node before recursing, and recursion
never removes entries). -/
theorem setSchemaForDocumentProperty_records :
    ∀ (parent : Option String) (property : String) (value : BVal) (props ps : Props),
      setSchemaForDocumentProperty parent property value props = .ok ps →
      containsKey ps (scopedPropertyOf parent property) = true := by
  intro parent property value props ps h
  cases value with
  | vNull => simp [setSchemaForDocumentProperty] at h
  | vObj fields =>
      simp only [setSchemaForDocumentProperty] at h
      exact setSchemaForFields_mono _ fields _ ps _ h (containsKey_objSet_self _ _ _)
  | vArr elems =>
      simp only [setSchemaForDocumentProperty] at h
      exact setSchemaForElements_mono _ elems _ ps _ h (containsKey_objSet_self _ _ _)
  | vBool b =>
      simp only [setSchemaForDocumentProperty, Except.ok.injEq] at h
      rw [← h]
      exact containsKey_objSet_self _ _ _
  | vNum n =>
      simp only [setSchemaForDocumentProperty, Except.ok.injEq] at h
      rw [← h]
      exact containsKey_objSet_self _ _ _
  | vStr s =>
      simp only [setSchemaForDocumentProperty, Except.ok.injEq] at h
      rw [← h]
      exact containsKey_objSet_self _ _ _

/-- Every non-skipped field of a successfully folded object ends up with an
entry at its scoped path. -/
theorem setSchemaForFields_records (parent : Option String) :
    ∀ (fields : List (String × BVal)) (props ps : Props) (property : String) (value : BVal),
      setSchemaForFields parent fields props = .ok ps →
      (property, value) ∈ fields →
      (isFalsyParent parent && (property == "_id")) = false →
      containsKey ps (scopedPropertyOf parent property) = true := by
  intro fields
  induction fields with
  | nil =>
      intro props ps property value h hmem hguard
      simp at hmem
  | cons hd rest ih =>
      obtain ⟨a, b⟩ := hd
      intro props ps property value h hmem hguard
      by_cases hg : (isFalsyParent parent && (a == "_id")) = true
      · simp only [setSchemaForFields] at h
        rw [if_pos hg] at h
        rcases List.mem_cons.mp hmem with heq | hrest
        · have h1 : property = a := congrArg Prod.fst heq
          rw [h1] at hguard
          simp [hguard] at hg
        · exact ih props ps property value h hrest hguard
      · simp only [Bool.not_eq_true] at hg
        simp only [setSchemaForFields] at h
        rw [if_neg (by simp [hg])] at h
        cases hv : setSchemaForDocumentProperty parent a b props with
        | error e =>
            rw [hv] at h
            cases e
            simp at h
        | ok props2 =>
            rw [hv] at h
            simp only [exceptOk_bind] at h
            rcases List.mem_cons.mp hmem with heq | hrest
            · have h1 : property = a := congrArg Prod.fst heq
              have h2 : value = b := congrArg Prod.snd heq
              rw [h1]
              exact setSchemaForFields_mono parent rest props2 ps _ h
                (setSchemaForDocumentProperty_records parent a b props props2 hv)
            · exact ih props2 ps property value h hrest hguard

/-- Inside any successfully folded object, a sub-object field `k` whose
scoped path is truthy records an entry for each of its own `_id` fields at
the dotted path `scoped(k)._id`. -/
theorem setSchemaForFields_nested_id (parent : Option String) :
    ∀ (fields : List (String × BVal)) (props ps : Props) (k : String)
      (inner : List (String × BVal)) (v : BVal),
      setSchemaForFields parent fields props = .ok ps →
      (k, BVal.vObj inner) ∈ fields →
      (isFalsyParent parent && (k == "_id")) = false →
      isFalsyParent (some (scopedPropertyOf parent k)) = false →
      ("_id", v) ∈ inner →
      containsKey ps (scopedPropertyOf (some (scopedPropertyOf parent k)) "_id") = true := by
  intro fields
  induction fields with
  | nil =>
      intro props ps k inner v h hmem hguard hfalsy hinner
      simp at hmem
  | cons hd rest ih =>
      obtain ⟨a, b⟩ := hd
      intro props ps k inner v h hmem hguard hfalsy hinner
      by_cases hg : (isFalsyParent parent && (a == "_id")) = true
      · simp only [setSchemaForFields] at h
        rw [if_pos hg] at h
        rcases List.mem_cons.mp hmem with heq | hrest
        · have h1 : k = a := congrArg Prod.fst heq
          rw [h1] at hguard
          simp [hguard] at hg
        · exact ih props ps k inner v h hrest hguard hfalsy hinner
      · simp only [Bool.not_eq_true] at hg
        simp only [setSchemaForFields] at h
        rw [if_neg (by simp [hg])] at h
        cases hv : setSchemaForDocumentProperty parent a b props with
        | error e =>
            rw [hv] at h
            cases e
            simp at h
        | ok props2 =>
            rw [hv] at h
            simp only [exceptOk_bind] at h
            rcases List.mem_cons.mp hmem with heq | hrest
            · have h1 : k = a := congrArg Prod.fst heq
              have h2 : BVal.vObj inner = b := congrArg Prod.snd heq
              subst h1
              rw [← h2] at hv
              simp only [setSchemaForDocumentProperty] at hv
              have hrec := setSchemaForFields_records (some (scopedPropertyOf parent k))
                inner _ props2 "_id" v hv hinner (by simp [hfalsy])
              exact setSchemaForFields_mono parent rest props2 ps _ h hrec
            · exact ih props2 ps k inner v h hrest hguard hfalsy hinner

/-- Inside a successfully folded array field with truthy scoped path, every
element that is an object records an entry for each of its own `_id` fields
at the dotted path `scoped._id`. -/
theorem setSchemaForElements_nested_id (scopedProperty : String) :
    ∀ (elems : List BVal) (props ps : Props) (inner : List (String × BVal)) (v : BVal),
      setSchemaForElements scopedProperty elems props = .ok ps →
      BVal.vObj inner ∈ elems →
      (scopedProperty == "") = false →
      ("_id", v) ∈ inner →
      containsKey ps (scopedPropertyOf (some scopedProperty) "_id") = true := by
  intro elems
  induction elems with
  | nil =>
      intro props ps inner v h hmem hsp hinner
      simp at hmem
  | cons e rest ih =>
      intro props ps inner v h hmem hsp hinner
      simp only [setSchemaForElements] at h
      cases hv : setSchemaForDocument (some scopedProperty) e props with
      | error err =>
          rw [hv] at h
          cases err
          simp at h
      | ok props2 =>
          rw [hv] at h
          simp only [exceptOk_bind] at h
          rcases List.mem_cons.mp hmem with heq | hrest
          · rw [← heq] at hv
            have hfields : setSchemaForFields (some scopedProperty) inner props = .ok props2 := by
              simpa [setSchemaForDocument] using hv
            have hrec := setSchemaForFields_records (some scopedProperty) inner props props2
              "_id" v hfields hinner (by simp [isFalsyParent, hsp])
            exact setSchemaForElements_mono scopedProperty rest props2 ps _ h hrec
          · exact ih props2 ps inner v h hrest hsp hinner

/-- On a cursor that never rejects, `readNext` returns the accumulator
extended by exactly enough documents to reach the batch size (or everything,
if the cursor is shorter). -/
theorem readNext_doc_cursor (docs : List BVal) :
    ∀ (result : List BVal) (batchSize : Nat), result.length ≤ batchSize →
      readNext result (docs.map CursorStep.doc) batchSize =
        some (result ++ docs.take (batchSize - result.length)) := by
  induction docs with
  | nil =>
      intro result bs h
      simp only [List.map_nil, readNext]
      split <;> simp
  | cons d rest ih =>
      intro result bs h
      simp only [List.map_cons, readNext]
      by_cases he : (result.length == bs) = true
      · rw [if_pos he]
        have heq : result.length = bs := by simpa using he
        have h0 : bs - result.length = 0 := by omega
        simp [h0]
      · rw [if_neg he]
        have hne : result.length ≠ bs := by simpa using he
        have hlt : result.length < bs := by omega
        rw [ih (result ++ [d]) bs (by simp; omega)]
        have h1 : bs - result.length = (bs - (result.length + 1)) + 1 := by omega
        simp [List.length_append, h1, List.take_succ_cons, List.append_assoc]

/-! ## Claims -/

/-- Claim C1 (amended).  First conjunct: folding any sampled document never
produces a property entry under the bare key `"_id"` — the root `_id` is
skipped and every nested path is dotted.  Second conjunct: a root field `k`
(not itself named `_id`, and not named by the empty string) holding a
sub-object with an `_id` field always records an entry at the dotted path
`k._id`.  Third conjunct: the claim's own example — folding the document
with fields `_id` (number 1) and `profile` (an object with field `_id` = 2)
records no entry for path `_id` but does record one for path `profile._id`.
The second conjunct covers any depth: it applies to the field list of any
sub-object the fold visits (with its scope as `parent`); the root case is
`parent = none`.  The fourth conjunct covers `_id` fields of objects that
are array elements.  The unamended universally quantified nested-inclusion
half fails for sub-objects whose scoped path is the empty string (see the
counterexample): the source tests `!parent`, and the empty string is falsy
in JavaScript just like the root document's `null`. -/
theorem c1_root_id_excluded_nested_id_included :
    (∀ (document : BVal) (ps : Props),
        setSchemaForDocument none document [] = .ok ps → containsKey ps "_id" = false)
    ∧ (∀ (parent : Option String) (fields : List (String × BVal)) (props ps : Props)
          (k : String) (inner : List (String × BVal)) (v : BVal),
        setSchemaForFields parent fields props = .ok ps →
        (k, BVal.vObj inner) ∈ fields →
        (isFalsyParent parent && (k == "_id")) = false →
        isFalsyParent (some (scopedPropertyOf parent k)) = false →
        ("_id", v) ∈ inner →
        containsKey ps (scopedPropertyOf (some (scopedPropertyOf parent k)) "_id") = true)
    ∧ (∀ (scopedProperty : String) (elems : List BVal) (props ps : Props)
          (inner : List (String × BVal)) (v : BVal),
        setSchemaForElements scopedProperty elems props = .ok ps →
        BVal.vObj inner ∈ elems →
        (scopedProperty == "") = false →
        ("_id", v) ∈ inner →
        containsKey ps (scopedPropertyOf (some scopedProperty) "_id") = true)
    ∧ setSchemaForDocument none
        (BVal.vObj [("_id", BVal.vNum 1), ("profile", BVal.vObj [("_id", BVal.vNum 2)])]) [] =
      .ok [("profile",
              setOperatorProperties "object"
                (Json.obj [("type", Json.arr [Json.str "object", Json.str "object"])])),
           ("profile._id",
              setOperatorProperties "number"
                (Json.obj [("type", Json.arr [Json.str "number", Json.str "object"])]))] := by
  refine ⟨?_, ?_, ?_, rfl⟩
  · intro document ps h
    exact setSchemaForDocument_keepsNoId none document [] ps h rfl
  · intro parent fields props ps k inner v h hmem hguard hfalsy hinner
    exact setSchemaForFields_nested_id parent fields props ps k inner v h hmem hguard
      hfalsy hinner
  · intro scopedProperty elems props ps inner v h hmem hsp hinner
    exact setSchemaForElements_nested_id scopedProperty elems props ps inner v h hmem
      hsp hinner

/-- Claim C1, witness: all three hypothesised conjuncts applied to concrete
documents — folding the document whose only field is `_id` leaves no `_id`
entry; in the folded example document the nested `_id` of `profile` is
recorded at its dotted path; and an `_id` inside an object that is an
element of an array field `tags` is recorded at `tags._id`. -/
theorem c1_witness :
    containsKey [] "_id" = false
    ∧ containsKey
        [("profile",
            setOperatorProperties "object"
              (Json.obj [("type", Json.arr [Json.str "object", Json.str "object"])])),
         ("profile._id",
            setOperatorProperties "number"
              (Json.obj [("type", Json.arr [Json.str "number", Json.str "object"])]))]
        (scopedPropertyOf (some (scopedPropertyOf none "profile")) "_id") = true
    ∧ containsKey
        [("tags._id",
            setOperatorProperties "number"
              (Json.obj [("type", Json.arr [Json.str "number", Json.str "object"])]))]
        (scopedPropertyOf (some "tags") "_id") = true :=
  ⟨c1_root_id_excluded_nested_id_included.1 (BVal.vObj [("_id", BVal.vNum 1)]) [] rfl,
   c1_root_id_excluded_nested_id_included.2.1 none
     [("_id", BVal.vNum 1), ("profile", BVal.vObj [("_id", BVal.vNum 2)])] [] _
     "profile" [("_id", BVal.vNum 2)] (BVal.vNum 2) rfl
     (List.mem_cons_of_mem _ (List.mem_cons_self _ _)) rfl rfl
     (List.mem_cons_self _ _),
   c1_root_id_excluded_nested_id_included.2.2.1 "tags"
     [BVal.vObj [("_id", BVal.vNum 7)]] [] _
     [("_id", BVal.vNum 7)] (BVal.vNum 7) rfl
     (List.mem_cons_self _ _) rfl
     (List.mem_cons_self _ _)⟩

/-- Claim C1, counterexample to the claim as stated: in the document whose
root field is named by the empty string and holds the sub-object
`\x7b_id: 2\x7d`, the nested `_id` field produces NO property entry at any
path — the whole fold result is the single entry for the empty-string path.
The scoped path of that sub-object is the empty string, which is falsy in
JavaScript, so the source's `!parent` guard skips the nested `_id` exactly as
it skips the root one. -/
theorem c1_counterexample :
    setSchemaForDocument none (BVal.vObj [("", BVal.vObj [("_id", BVal.vNum 2)])]) [] =
      .ok [("", setOperatorProperties "object"
              (Json.obj [("type", Json.arr [Json.str "object", Json.str "object"])]))] := rfl

/-- Claim C2: every field property schema recorded by folding any batch of
sampled documents has a `type` attribute that is a two-element list whose
first element is one of the runtime type strings and whose second element is
the literal `"object"`. -/
theorem c2_type_is_pair_with_object :
    ∀ (documents : List BVal) (ps : Props),
      setSchemaForDocuments documents [] = .ok ps → allTypeOrObject ps = true := by
  intro documents ps h
  exact setSchemaForDocuments_typeShape documents [] ps h rfl

/-- Claim C2, witness: folding the single document `\x7bname: "Bob"\x7d`
succeeds and its recorded node satisfies the type-or-object shape. -/
theorem c2_witness :
    ∃ ps : Props,
      setSchemaForDocuments [BVal.vObj [("name", BVal.vStr "Bob")]] [] = .ok ps ∧
        allTypeOrObject ps = true :=
  ⟨_, rfl, c2_type_is_pair_with_object [BVal.vObj [("name", BVal.vStr "Bob")]] _ rfl⟩

/-- Claim C3: writing a schema node for a path replaces the previous node for
that path entirely (first conjunct), and folding the claim's example document
`\x7btags: [\x7bx: 1\x7d, \x7bx: "s"\x7d]\x7d` yields exactly one property
entry for path `tags.x`, whose recorded type is the string kind — the type of
the last array element processed, not a union. -/
theorem c3_overwrite_not_merge :
    (∀ (props : Props) (key : String) (node : Json),
        objGet (objSet props key node) key = some node)
    ∧ setSchemaForDocument none
        (BVal.vObj [("tags", BVal.vArr [BVal.vObj [("x", BVal.vNum 1)],
                                        BVal.vObj [("x", BVal.vStr "s")]])]) [] =
      .ok [("tags",
              setOperatorProperties "array"
                (Json.obj [("type", Json.arr [Json.str "array", Json.str "object"])])),
           ("tags.x",
              setOperatorProperties "string"
                (Json.obj [("type", Json.arr [Json.str "string", Json.str "object"])]))] :=
  ⟨objGet_objSet_self, rfl⟩

/-- Claim C4: the operator set attached to a field property schema contains
`$all` exactly when the field's inferred type is `array`, and likewise for
`$size`. -/
theorem c4_array_only_operators :
    ∀ type : String,
      containsKey (operatorProperties type) "$all" = (type == "array") ∧
      containsKey (operatorProperties type) "$size" = (type == "array") := by
  intro type
  cases h : (type == "array") with
  | false =>
      constructor <;> simp [operatorProperties, expressionSchemaProperties, h, containsKey, objSet]
  | true =>
      constructor <;> simp [operatorProperties, expressionSchemaProperties, h, containsKey, objSet]

/-- Claim C5: the sampling loop started on an empty accumulator reads
documents one at a time and returns exactly the first `batchSize` documents
the cursor can produce (all of them when fewer are available); in particular
a cursor with at least 10 available documents yields exactly 10 for the
schema resolution batch size. -/
theorem c5_sample_cap :
    (∀ (docs : List BVal) (batchSize : Nat),
        readNext [] (docs.map CursorStep.doc) batchSize = some (docs.take batchSize))
    ∧ (∀ docs : List BVal, 10 ≤ docs.length →
        readNext [] (docs.map CursorStep.doc) 10 = some (docs.take 10) ∧
          (docs.take 10).length = 10) := by
  have h1 : ∀ (docs : List BVal) (batchSize : Nat),
      readNext [] (docs.map CursorStep.doc) batchSize = some (docs.take batchSize) := by
    intro docs bs
    simpa using readNext_doc_cursor docs [] bs (by simp)
  refine ⟨h1, fun docs h => ⟨h1 docs 10, ?_⟩⟩
  simp only [List.length_take]
  exact Nat.min_eq_left h

/-- Claim C5, witness: a cursor offering 12 documents yields exactly the
first 10. -/
theorem c5_witness :
    readNext [] ((List.replicate 12 (BVal.vNum 0)).map CursorStep.doc) 10 =
        some ((List.replicate 12 (BVal.vNum 0)).take 10) ∧
      ((List.replicate 12 (BVal.vNum 0)).take 10).length = 10 :=
  c5_sample_cap.2 (List.replicate 12 (BVal.vNum 0)) (by simp)

theorem containsKey_setLogical_preserve (props : Props) (schemaUri k : String)
    (h : containsKey props k = true) :
    containsKey (setLogicalOperatorProperties props schemaUri) k = true := by
  simp only [setLogicalOperatorProperties]
  exact containsKey_objSet_preserve _ _ _ _
    (containsKey_objSet_preserve _ _ _ _ (containsKey_objSet_preserve _ _ _ _ h))

/-- Claim C6 (amended).  First conjunct: whenever the resolution promise
fulfills, the returned text is the `JSON.stringify` serialization of a schema
object whose root `properties` map contains the six static operator entries.
Second conjunct: a collection yielding zero sampled documents fulfills with
the serialization of the schema whose `properties` are exactly the six static
operators — `$text`, `$where`, `$comment`, `$or`, `$and`, `$nor` — and
nothing else.  The unamended claim ("for any collection URI ... returns
text") fails because a sample the fold throws on, or a rejected cursor read,
leaves the promise unsettled and no text is ever produced (see the
counterexample). -/
theorem c6_static_catalog_and_empty_collection :
    (∀ (db : String → List CursorStep) (collectionName schemaUri s : String),
        resolveQueryCollectionSchema db collectionName schemaUri =
            PromiseOutcome.fulfilled s →
        ∃ ps : Props,
          s = stringify (Json.obj [("type", Json.str "object"),
                                   ("properties", Json.obj ps)]) ∧
          containsKey ps "$text" = true ∧ containsKey ps "$where" = true ∧
          containsKey ps "$comment" = true ∧ containsKey ps "$or" = true ∧
          containsKey ps "$and" = true ∧ containsKey ps "$nor" = true)
    ∧ (∀ (db : String → List CursorStep) (collectionName schemaUri : String),
        db collectionName = [] →
        resolveQueryCollectionSchema db collectionName schemaUri =
            PromiseOutcome.fulfilled
              (stringify (Json.obj [("type", Json.str "object"),
                ("properties", Json.obj
                  (setLogicalOperatorProperties (setGlobalOperatorProperties []) schemaUri))])) ∧
          (setLogicalOperatorProperties (setGlobalOperatorProperties []) schemaUri).map
              Prod.fst =
            ["$text", "$where", "$comment", "$or", "$and", "$nor"]) := by
  constructor
  · intro db collectionName schemaUri s h
    simp only [resolveQueryCollectionSchema] at h
    split at h
    · simp at h
    case _ result =>
        split at h
        · simp at h
        case _ props _ =>
            simp only [PromiseOutcome.fulfilled.injEq] at h
            refine ⟨setLogicalOperatorProperties (setGlobalOperatorProperties props) schemaUri,
              h.symm, ?_, ?_, ?_, ?_, ?_, ?_⟩
            · exact containsKey_setLogical_preserve _ _ _ (by
                simp only [setGlobalOperatorProperties]
                exact containsKey_objSet_preserve _ _ _ _
                  (containsKey_objSet_preserve _ _ _ _ (containsKey_objSet_self _ _ _)))
            · exact containsKey_setLogical_preserve _ _ _ (by
                simp only [setGlobalOperatorProperties]
                exact containsKey_objSet_preserve _ _ _ _ (containsKey_objSet_self _ _ _))
            · exact containsKey_setLogical_preserve _ _ _ (by
                simp only [setGlobalOperatorProperties]
                exact containsKey_objSet_self _ _ _)
            · simp only [setLogicalOperatorProperties]
              exact containsKey_objSet_preserve _ _ _ _
                (containsKey_objSet_preserve _ _ _ _ (containsKey_objSet_self _ _ _))
            · simp only [setLogicalOperatorProperties]
              exact containsKey_objSet_preserve _ _ _ _ (containsKey_objSet_self _ _ _)
            · simp only [setLogicalOperatorProperties]
              exact containsKey_objSet_self _ _ _
  · intro db collectionName schemaUri hempty
    constructor
    · simp only [resolveQueryCollectionSchema, hempty]
      rfl
    · rfl

/-- Claim C6, witness: resolving an empty collection fulfills with the
serialization of the static-only schema, whose property keys are exactly the
six static operators. -/
theorem c6_witness :
    (∃ ps : Props,
        stringify (Json.obj [("type", Json.str "object"),
          ("properties", Json.obj
            (setLogicalOperatorProperties (setGlobalOperatorProperties [])
              "mongo://query/users"))]) =
          stringify (Json.obj [("type", Json.str "object"), ("properties", Json.obj ps)]) ∧
        containsKey ps "$text" = true ∧ containsKey ps "$where" = true ∧
        containsKey ps "$comment" = true ∧ containsKey ps "$or" = true ∧
        containsKey ps "$and" = true ∧ containsKey ps "$nor" = true)
    ∧ (resolveQueryCollectionSchema (fun _ => []) "users" "mongo://query/users" =
          PromiseOutcome.fulfilled
            (stringify (Json.obj [("type", Json.str "object"),
              ("properties", Json.obj
                (setLogicalOperatorProperties (setGlobalOperatorProperties [])
                  "mongo://query/users"))])) ∧
        (setLogicalOperatorProperties (setGlobalOperatorProperties [])
            "mongo://query/users").map Prod.fst =
          ["$text", "$where", "$comment", "$or", "$and", "$nor"]) :=
  ⟨c6_static_catalog_and_empty_collection.1 (fun _ => []) "users" "mongo://query/users" _ rfl,
   c6_static_catalog_and_empty_collection.2 (fun _ => []) "users" "mongo://query/users" rfl⟩

/-- Claim C6, counterexample to the claim as stated: for a collection whose
single sampled document is `\x7ba: null\x7d` the fold throws, the promise
never settles, and no JSON text at all is returned for this collection URI. -/
theorem c6_counterexample :
    resolveSchema (fun _ => [CursorStep.doc (BVal.vObj [("a", BVal.vNull)])])
        "mongo://query/c" = some PromiseOutcome.pending := rfl

/-- Claim C7: the promise returned for a collection URI is never rejected.
First conjunct: when the collection's very first cursor read rejects (the
collection was deleted, say), the promise is left pending forever — the
failure is not surfaced.  Second conjunct: for every data source and URI the
result is `undefined`, a pending promise, or a fulfilled one; the rejected
outcome is unreachable because the source never invokes the executor's
reject callback and installs no rejection handler on the cursor promises. -/
theorem c7_failure_never_rejected :
    resolveSchema (fun _ => [CursorStep.fail]) "mongo://query/users" =
        some PromiseOutcome.pending
    ∧ ∀ (db : String → List CursorStep) (uri : String),
        resolveSchema db uri = none ∨
        resolveSchema db uri = some PromiseOutcome.pending ∨
        ∃ s, resolveSchema db uri = some (PromiseOutcome.fulfilled s) := by
  constructor
  · rfl
  · intro db uri
    by_cases hs : (strStartsWith uri "mongo://query/") = true
    · right
      simp only [resolveSchema]
      rw [if_pos hs]
      simp only [resolveQueryCollectionSchema]
      split
      · left; rfl
      · split
        · left; rfl
        · right; exact ⟨_, rfl⟩
    · left
      simp only [Bool.not_eq_true] at hs
      simp [resolveSchema, hs]

/-- Claim C8: URIs that do not start with `"mongo://query/"` — including the
generic document URI `"mongo://query.json"` — resolve to `undefined`, and
every URI of the form `"mongo://query/" + collectionName` triggers schema
synthesis for that collection. -/
theorem c8_uri_dispatch :
    (∀ (db : String → List CursorStep) (uri : String),
        strStartsWith uri "mongo://query/" = false → resolveSchema db uri = none)
    ∧ (∀ db : String → List CursorStep, resolveSchema db queryDocumentUri = none)
    ∧ (∀ (db : String → List CursorStep) (collectionName : String),
        resolveSchema db (queryCollectionSchema collectionName) =
          some (resolveQueryCollectionSchema db collectionName
            (queryCollectionSchema collectionName))) := by
  refine ⟨?_, ?_, ?_⟩
  · intro db uri h
    simp [resolveSchema, h]
  · intro db
    have h : strStartsWith queryDocumentUri "mongo://query/" = false := rfl
    simp [resolveSchema, h]
  · intro db collectionName
    have hpre : strStartsWith (queryCollectionSchema collectionName) "mongo://query/" = true := by
      simp [strStartsWith, queryCollectionSchema, String.data_append, isPrefixOf_append]
    have hdrop : strDrop (queryCollectionSchema collectionName) ("mongo://query/".length) =
        collectionName := by
      simp only [strDrop, queryCollectionSchema, String.data_append]
      rw [show ("mongo://query/".length) = ("mongo://query/".data).length from rfl]
      rw [List.drop_left]
    simp only [resolveSchema]
    rw [if_pos hpre, hdrop]

/-- Claim C8, witness: a URI that lacks the collection-schema prefix resolves
to `undefined`. -/
theorem c8_witness : resolveSchema (fun _ => []) "users" = none :=
  c8_uri_dispatch.1 (fun _ => []) "users" rfl

/-- Claim C9: regardless of the field's inferred type, the operator set of
every field property schema carries a `$not` entry — an object whose
`properties` are exactly the same expression operator set the field itself
received — and an `$elemMatch` entry that is an unconstrained object. -/
theorem c9_not_and_elemMatch_wrappers :
    ∀ type : String,
      objGet (operatorProperties type) "$not" =
        some (Json.obj [("type", Json.str "object"),
          ("description", Json.str "Inverts the effect of a query expression and returns documents that do not match the query expression"),
          ("properties", Json.obj (expressionSchemaProperties type))]) ∧
      objGet (operatorProperties type) "$elemMatch" =
        some (Json.obj [("type", Json.str "object")]) := by
  intro type
  cases h : (type == "array") with
  | false =>
      constructor <;> simp [operatorProperties, expressionSchemaProperties, h, objGet, objSet]
  | true =>
      constructor <;> simp [operatorProperties, expressionSchemaProperties, h, objGet, objSet]

/-- Claim C10 (amended).  First conjunct: the fold of a document succeeds
exactly when the `documentThrows` model finds no `null` at a position the
traversal visits — a null-valued field makes `Object.keys` throw when it is
reached, but the root-level (falsy-scope) `_id` is skipped and array elements
that are themselves arrays are never descended into, so nulls hiding there do
NOT make resolution fail.  Second conjunct: the error branch is reachable —
folding the sample `\x7ba: null\x7d` fails. -/
theorem c10_null_field_throws_iff_visited :
    (∀ (parent : Option String) (document : BVal) (props : Props),
        (setSchemaForDocument parent document props).isOk =
          !documentThrows (isFalsyParent parent) document)
    ∧ (setSchemaForDocuments [BVal.vObj [("a", BVal.vNull)]] []).isOk = false :=
  ⟨setSchemaForDocument_isOk, rfl⟩

/-- Claim C10, counterexample to the claim as stated: this document contains
a null-valued field `b` (nested inside an array of arrays), yet the fold
succeeds — the traversal never visits that `null`, because array elements
that are arrays are not descended into. -/
theorem c10_counterexample :
    hasNullValuedField
        (BVal.vObj [("a", BVal.vArr [BVal.vArr [BVal.vObj [("b", BVal.vNull)]]])]) = true
    ∧ setSchemaForDocument none
        (BVal.vObj [("a", BVal.vArr [BVal.vArr [BVal.vObj [("b", BVal.vNull)]]])]) [] =
      .ok [("a", setOperatorProperties "array"
              (Json.obj [("type", Json.arr [Json.str "array", Json.str "object"])]))] :=
  ⟨rfl, rfl⟩

end SchemaService
